import Mathlib

/-!
Verification of the Task CRUD service (FastAPI + SQLModel task manager).

Shallow embedding of:
  - `app/crud.py` : `TaskRepository` (create / get / get_all / update / delete / count)
  - `app/routers/tasks.py` : HTTP endpoint handlers
  - `app/database.py` : `DatabaseConfig.__init__` URL rewriting

Modelling conventions:
  - Timestamps (`datetime.utcnow()`) are natural numbers; each operation that
    reads the wall clock takes the observed value as an explicit `now` argument.
  - The database table is a list of rows plus the autoincrement counter.
  - A session holds the in-transaction (flushed but uncommitted) state `db` and
    the durable state `committed`; `flush` updates `db` only, `commit` copies
    `db` into `committed`.  Raising an HTTP error before any commit leaves
    `committed` untouched (the request's transaction is rolled back).
  - `app/models.py` is referenced by the code but is not part of the source
    tree; the `Task` table shape and the `TaskCreate`/`TaskUpdate` schemas are
    modelled from the spec (section 3: field list, defaults, and the
    Create/Update shapes) and from the unit tests that exercise them.
-/

namespace TaskApp

/-- Modelled from the spec: the `Task` table row of the missing `app/models.py`.
Fields per spec section 3: `id` generated (absent before flush), `title`,
optional `description`, `completed` defaulting to false, `created_at` set at
creation, `updated_at` null until first update. -/
structure Task where
  id : Option Nat
  title : String
  description : Option String
  completed : Bool
  created_at : Option Nat
  updated_at : Option Nat
  deriving DecidableEq, Repr

/-- Modelled from the spec: the `TaskCreate` input shape of the missing
`app/models.py` (title required, description optional, completed defaults
to false). -/
structure TaskCreate where
  title : String
  description : Option String := none
  completed : Bool := false
  deriving DecidableEq, Repr

/-- Modelled from the spec: the `TaskUpdate` shape of the missing
`app/models.py`: every field optional, `none` meaning "not supplied".
For `description`, the supplied value may itself be null. -/
structure TaskUpdate where
  title : Option String := none
  description : Option (Option String) := none
  completed : Option Bool := none
  deriving DecidableEq, Repr

/-- One key/value entry of the `data : Dict[str, Any]` passed to
`TaskRepository.update`; the constructor encodes the key, the argument the
value assigned by `setattr`. -/
inductive FieldVal where
  | id (v : Option Nat)
  | title (v : String)
  | description (v : Option String)
  | completed (v : Bool)
  | created_at (v : Option Nat)
  | updated_at (v : Option Nat)
  deriving DecidableEq, Repr

/-- `setattr(task, key, value)` for one dict entry. -/
def setattrTask (t : Task) : FieldVal → Task
  | .id v => { t with id := v }
  | .title v => { t with title := v }
  | .description v => { t with description := v }
  | .completed v => { t with completed := v }
  | .created_at v => { t with created_at := v }
  | .updated_at v => { t with updated_at := v }

/-- the `for key, value in data.items(): setattr(task, key, value)` loop of
`TaskRepository.update`. -/
def applyFields (t : Task) (data : List FieldVal) : Task :=
  data.foldl setattrTask t

/-- `task_update.model_dump(exclude_unset=True)` in the PATCH handler: only the
fields actually supplied appear in the dict, in field-declaration order. -/
def TaskUpdate.dumpExcludeUnset (u : TaskUpdate) : List FieldVal :=
  (match u.title with
   | some v => [FieldVal.title v]
   | none => []) ++
  (match u.description with
   | some v => [FieldVal.description v]
   | none => []) ++
  (match u.completed with
   | some v => [FieldVal.completed v]
   | none => [])

/-- the `tasks` table: rows plus the autoincrement primary-key counter. -/
structure DB where
  rows : List Task
  nextId : Nat
  deriving DecidableEq, Repr

/-- an `AsyncSession`: pending (flushed) state and last committed state. -/
structure Session where
  db : DB
  committed : DB
  deriving DecidableEq, Repr

/-- `session.commit()`. -/
def Session.commit (s : Session) : Session :=
  { s with committed := s.db }

/-- a fresh session over an empty table (autoincrement ids start at 1). -/
def Session.empty : Session :=
  { db := { rows := [], nextId := 1 }, committed := { rows := [], nextId := 1 } }

/-- the row constructed by `Task(**task_data)` once flushed: the database
assigns the autoincrement id, the model default sets `created_at` to the
current time, `updated_at` stays null. -/
def mkTask (nid : Nat) (d : TaskCreate) (now : Nat) : Task :=
  { id := some nid
    title := d.title
    description := d.description
    completed := d.completed
    created_at := some now
    updated_at := none }

/-- `TaskRepository.create`: construct, `add`, `flush` (obtain generated id and
timestamp), return the populated entity.  No commit. -/
def TaskRepository.create (s : Session) (task_data : TaskCreate) (now : Nat) :
    Task × Session :=
  let task := mkTask s.db.nextId task_data now
  (task, { s with db := { rows := s.db.rows ++ [task], nextId := s.db.nextId + 1 } })

/-- `TaskRepository.get`: `session.get(Task, task_id)` — primary-key lookup,
`None` when absent. -/
def TaskRepository.get (s : Session) (task_id : Nat) : Option Task :=
  s.db.rows.find? (fun t => t.id == some task_id)

/-- relation "ordered by primary key" used by `order_by(Task.id)`. -/
def idLe (a b : Task) : Prop :=
  a.id.getD 0 ≤ b.id.getD 0

instance : DecidableRel idLe := fun a b =>
  inferInstanceAs (Decidable (a.id.getD 0 ≤ b.id.getD 0))

instance : IsTotal Task idLe := ⟨fun a b => Nat.le_total _ _⟩

instance : IsTrans Task idLe := ⟨fun _ _ _ => Nat.le_trans⟩

/-- `TaskRepository.get_all`: `select(Task).offset(skip).limit(limit).order_by(Task.id)`
— the rows sorted by primary key, with `skip` dropped and at most `limit` kept. -/
def TaskRepository.get_all (s : Session) (skip limit : Nat) : List Task :=
  ((s.db.rows.insertionSort idLe).drop skip).take limit

/-- `TaskRepository.update`: fetch by id; absent → `None`; otherwise `setattr`
every dict entry, stamp `updated_at = datetime.utcnow()`, flush, return the
updated entity. -/
def TaskRepository.update (s : Session) (task_id : Nat) (data : List FieldVal)
    (now : Nat) : Option Task × Session :=
  match TaskRepository.get s task_id with
  | none => (none, s)
  | some task =>
      let t1 := applyFields task data
      let t2 := { t1 with updated_at := some now }
      (some t2,
        { s with db :=
          { s.db with rows := s.db.rows.map (fun r => if r.id == some task_id then t2 else r) } })

/-- `TaskRepository.delete`: fetch by id; absent → `False`; otherwise delete
the row, flush, return `True`. -/
def TaskRepository.delete (s : Session) (task_id : Nat) : Bool × Session :=
  match TaskRepository.get s task_id with
  | none => (false, s)
  | some _ =>
      (true,
        { s with db :=
          { s.db with rows := s.db.rows.filter (fun r => !(r.id == some task_id)) } })

/-- `TaskRepository.count`: `SELECT count(*) FROM tasks`. -/
def TaskRepository.count (s : Session) : Nat :=
  s.db.rows.length

/-- an `HTTPException`: status code and detail message. -/
structure HError where
  status_code : Nat
  detail : String
  deriving DecidableEq, Repr

/-- `POST /tasks/` handler: create, then commit. -/
def create_task (s : Session) (task : TaskCreate) (now : Nat) : Task × Session :=
  let r := TaskRepository.create s task now
  (r.1, Session.commit r.2)

/-- `GET /tasks/` handler: list with pagination, no commit needed. -/
def list_tasks (s : Session) (skip limit : Nat) : List Task :=
  TaskRepository.get_all s skip limit

/-- `GET /tasks/{task_id}` handler: 404 with the id in the detail when absent. -/
def get_task (s : Session) (task_id : Nat) : Except HError Task :=
  match TaskRepository.get s task_id with
  | none =>
      Except.error
        { status_code := 404, detail := ("Task " ++ toString task_id ++ " not found") }
  | some t => Except.ok t

/-- `PATCH /tasks/{task_id}` handler: reject an empty field set with 400 before
any repository call; absent id → 404; otherwise update and commit.  The
returned session is the state the request leaves behind (on an error the
transaction was never committed). -/
def update_task (s : Session) (task_id : Nat) (task_update : TaskUpdate)
    (now : Nat) : Except HError Task × Session :=
  let update_data := task_update.dumpExcludeUnset
  if update_data.isEmpty then
    (Except.error { status_code := 400, detail := "No fields to update" }, s)
  else
    match TaskRepository.update s task_id update_data now with
    | (none, s1) =>
        (Except.error
          { status_code := 404, detail := ("Task " ++ toString task_id ++ " not found") }, s1)
    | (some t, s1) => (Except.ok t, Session.commit s1)

/-- `DELETE /tasks/{task_id}` handler: absent id → 404; otherwise delete and
commit (204 No Content is the `Except.ok ()` outcome). -/
def delete_task (s : Session) (task_id : Nat) : Except HError Unit × Session :=
  let r := TaskRepository.delete s task_id
  if r.1 then (Except.ok (), Session.commit r.2)
  else
    (Except.error
      { status_code := 404, detail := ("Task " ++ toString task_id ++ " not found") }, r.2)

/-- strict advancement of an optional timestamp: the new stamp is present and
strictly newer than the old, `none` counting as older than everything. -/
def strictlyNewer : Option Nat → Option Nat → Bool
  | _, none => false
  | none, some _ => true
  | some p, some q => p < q

/-! URL rewriting of `DatabaseConfig.__init__` (`app/database.py`).
Strings are handled as character lists; the helpers below spell out the
Python primitives used by the code (`in`, `str.replace` with and without a
count, and the `re.sub` call) for the non-empty patterns the code passes. -/

/-- Python's substring test `pat in s`. -/
def listIsInfix (pat : List Char) : List Char → Bool
  | [] => pat.isEmpty
  | c :: rest => pat.isPrefixOf (c :: rest) || listIsInfix pat rest

/-- Python's `s.replace(pat, rep, 1)`: replace the leftmost occurrence of a
non-empty `pat` (for an empty `pat` Python would prepend `rep`; the code only
passes a non-empty pattern). -/
def replaceFirstAux (pat rep : List Char) : List Char → List Char
  | [] => []
  | c :: rest =>
      if pat.isPrefixOf (c :: rest) then rep ++ (c :: rest).drop pat.length
      else c :: replaceFirstAux pat rep rest

/-- Python's `s.replace(pat, rep)`: replace every occurrence of a non-empty
`pat`, scanning left to right without overlap. -/
def replaceAllAux (pat rep : List Char) (s : List Char) : List Char :=
  match s with
  | [] => []
  | c :: rest =>
      if h : pat.isPrefixOf (c :: rest) ∧ pat ≠ [] then
        rep ++ replaceAllAux pat rep ((c :: rest).drop pat.length)
      else c :: replaceAllAux pat rep rest
termination_by s.length
decreasing_by
  · simp only [List.length_drop, List.length_cons]
    have hp : 0 < pat.length := List.length_pos.mpr h.2
    omega
  · simp only [List.length_cons]
    omega

/-- Python's `re.sub(r'[&?]channel_binding=[^&]*', '', s)` for a literal
parameter name `pat` (here `channel_binding=`): drop each `&`- or
`?`-introduced occurrence of the parameter together with its value up to the
next `&`. -/
def removeParamAux (pat : List Char) (s : List Char) : List Char :=
  match s with
  | [] => []
  | c :: rest =>
      if (c == '&' || c == '?') && pat.isPrefixOf rest then
        removeParamAux pat ((rest.drop pat.length).dropWhile (fun ch => ch != '&'))
      else c :: removeParamAux pat rest
termination_by s.length
decreasing_by
  · simp only [List.length_cons]
    have h1 := (rest.drop pat.length).dropWhile_sublist (fun ch => ch != '&')
    have h2 := h1.length_le
    simp only [List.length_drop] at h2
    omega
  · simp only [List.length_cons]
    omega

/-- the Python `or` of `os.getenv("DATABASE_URL") or os.getenv("DB_URL")`:
an unset variable is `none`, and an empty string is falsy, so it also falls
through to the second variable. -/
def envOr (a b : Option String) : Option String :=
  match a with
  | some s => if s = "" then envOrSnd b else some s
  | none => envOrSnd b
where
  envOrSnd : Option String → Option String
    | some s => if s = "" then none else some s
    | none => none

/-- the URL rewriting in `DatabaseConfig.__init__`: switch a leading
`postgresql://` to the asyncpg driver, translate `sslmode=` to `ssl=` when
present, and strip any `channel_binding=` query parameter. -/
def DatabaseConfig.processUrl (url : String) : String :=
  let u0 := url.toList
  let u1 :=
    if ("postgresql://".toList).isPrefixOf u0 then
      replaceFirstAux ("postgresql://".toList) ("postgresql+asyncpg://".toList) u0
    else u0
  let u2 :=
    if listIsInfix ("sslmode=".toList) u1 then
      replaceAllAux ("sslmode=".toList) ("ssl=".toList) u1
    else u1
  let u3 :=
    if listIsInfix ("channel_binding=".toList) u2 then
      removeParamAux ("channel_binding=".toList) u2
    else u2
  String.mk u3

/-- `DatabaseConfig.__init__` given the observed values of the two environment
variables: require one of them (else raise `ValueError`), then rewrite the
URL.  `init_db` runs this at startup, so the error aborts startup. -/
def DatabaseConfig.init (database_url db_url : Option String) : Except String String :=
  match envOr database_url db_url with
  | none => Except.error "DATABASE_URL or DB_URL environment variable is required"
  | some url => Except.ok (DatabaseConfig.processUrl url)

/-- Modelled from the spec: the claimed rewriting, stated directly — a leading
`postgresql://` becomes `postgresql+asyncpg://`, every occurrence of
`sslmode=` becomes `ssl=`, and any `channel_binding=` query parameter is
removed, each step unconditionally. -/
def specRewriteUrl (url : String) : String :=
  let u0 := url.toList
  let u1 :=
    if ("postgresql://".toList).isPrefixOf u0 then
      ("postgresql+asyncpg://".toList) ++ u0.drop (("postgresql://".toList).length)
    else u0
  let u2 := replaceAllAux ("sslmode=".toList) ("ssl=".toList) u1
  let u3 := removeParamAux ("channel_binding=".toList) u2
  String.mk u3

/-! Traces of repository operations, for the `updated_at` lifecycle invariant.
Updates go through the `TaskUpdate` shape, as every caller in the repository's
own service does. -/

/-- one repository operation, carrying the wall-clock value the operation
observes. -/
inductive Op where
  | create (d : TaskCreate) (now : Nat)
  | update (i : Nat) (data : List FieldVal) (now : Nat)
  | delete (i : Nat)
  deriving DecidableEq, Repr

/-- effect of one repository operation on the session. -/
def step (s : Session) : Op → Session
  | .create d now => (TaskRepository.create s d now).2
  | .update i data now => (TaskRepository.update s i data now).2
  | .delete i => (TaskRepository.delete s i).2

/-- state after a sequence of repository operations from an empty table. -/
def run (ops : List Op) : Session :=
  ops.foldl step Session.empty

/-- a row instrumented with the ghost flag "a successful update has been
applied to this row since its creation". -/
structure GTask where
  task : Task
  modified : Bool
  deriving DecidableEq, Repr

/-- the instrumented table. -/
structure GDB where
  rows : List GTask
  nextId : Nat
  deriving DecidableEq, Repr

/-- the instrumented empty table. -/
def GDB.empty : GDB :=
  { rows := [], nextId := 1 }

/-- forget the ghost flags. -/
def GDB.proj (g : GDB) : DB :=
  { rows := g.rows.map GTask.task, nextId := g.nextId }

/-- instrumented effect of one repository operation: identical to `step` on
the task data, additionally setting the ghost flag on each updated row. -/
def gstep (g : GDB) : Op → GDB
  | .create d now =>
      { rows := g.rows ++ [{ task := mkTask g.nextId d now, modified := false }],
        nextId := g.nextId + 1 }
  | .update i data now =>
      match g.rows.find? (fun r => r.task.id == some i) with
      | none => g
      | some r =>
          let t1 := applyFields r.task data
          let t2 := { t1 with updated_at := some now }
          { g with rows :=
              g.rows.map (fun x =>
                if x.task.id == some i then { task := t2, modified := true } else x) }
  | .delete i =>
      match g.rows.find? (fun r => r.task.id == some i) with
      | none => g
      | some _ => { g with rows := g.rows.filter (fun x => !(x.task.id == some i)) }

/-- instrumented run. -/
def grun (ops : List Op) : GDB :=
  ops.foldl gstep GDB.empty

/-! Concrete fixtures used by the witnesses. -/

/-- a sample create payload. -/
def exCreate : TaskCreate :=
  { title := "Buy groceries", description := some "Milk and eggs", completed := false }

/-- the row the sample payload produces as id 1 at time 1. -/
def exTask : Task :=
  mkTask 1 exCreate 1

/-- a committed session holding the sample row. -/
def exSession : Session :=
  { db := { rows := [exTask], nextId := 2 }, committed := { rows := [exTask], nextId := 2 } }

/-- a sample partial update supplying only `completed`. -/
def exUpd : TaskUpdate :=
  { completed := some true }

/-- the empty partial update (no field supplied). -/
def exEmptyUpd : TaskUpdate :=
  {}

/-- a sample operation trace: create then update. -/
def exOps : List Op :=
  [Op.create exCreate 1, Op.update 1 exUpd.dumpExcludeUnset 2]

/-- the instrumented row the sample trace produces. -/
def exGTask : GTask :=
  { task :=
      { id := some 1, title := "Buy groceries", description := some "Milk and eggs",
        completed := true, created_at := some 1, updated_at := some 2 },
    modified := true }

/-- the ghost invariant: a row's `updated_at` is non-null exactly when the
row has been hit by a successful update since its creation. -/
def GInv (g : GDB) : Prop :=
  ∀ r ∈ g.rows, r.task.updated_at.isSome = r.modified

/-- a sample hosted-provider connection string. -/
def exUrl : String :=
  "postgresql://h/db?sslmode=require&channel_binding=prefer"

/-- C1: for an id absent from storage, repository `get` returns `None`,
`update` returns `None` and `delete` returns `False` (none of them raises for
absence); and the GET, PATCH (with a non-empty body) and DELETE endpoints
each answer 404 with a detail message embedding the requested id. -/
theorem not_found_semantics (s : Session) (i : Nat) (u : TaskUpdate) (now : Nat)
    (habs : ∀ t ∈ s.db.rows, t.id ≠ some i)
    (hne : u.dumpExcludeUnset ≠ []) :
    TaskRepository.get s i = none ∧
    (TaskRepository.update s i u.dumpExcludeUnset now).1 = none ∧
    (TaskRepository.delete s i).1 = false ∧
    get_task s i =
      Except.error { status_code := 404, detail := ("Task " ++ toString i ++ " not found") } ∧
    (update_task s i u now).1 =
      Except.error { status_code := 404, detail := ("Task " ++ toString i ++ " not found") } ∧
    (delete_task s i).1 =
      Except.error { status_code := 404, detail := ("Task " ++ toString i ++ " not found") } ∧
    ∃ pre post, ("Task " ++ toString i ++ " not found") = pre ++ toString i ++ post := by
  have hget : TaskRepository.get s i = none := by
    unfold TaskRepository.get
    rw [List.find?_eq_none]
    intro t ht
    simpa using habs t ht
  have hupd : TaskRepository.update s i u.dumpExcludeUnset now = (none, s) := by
    simp [TaskRepository.update, hget]
  have hdel : TaskRepository.delete s i = (false, s) := by
    simp [TaskRepository.delete, hget]
  have hemp : u.dumpExcludeUnset.isEmpty = false := by
    cases hd : u.dumpExcludeUnset with
    | nil => exact absurd hd hne
    | cons a l => rfl
  refine ⟨hget, by rw [hupd], by rw [hdel], ?_, ?_, ?_, ⟨"Task ", " not found", rfl⟩⟩
  · simp [get_task, hget]
  · simp [update_task, hemp, hupd]
  · simp [delete_task, hdel]

/-- C1 witness: id 999 is absent from the sample session. -/
theorem not_found_semantics_witness :
    TaskRepository.get exSession 999 = none ∧
    (TaskRepository.update exSession 999 exUpd.dumpExcludeUnset 5).1 = none ∧
    (TaskRepository.delete exSession 999).1 = false ∧
    get_task exSession 999 =
      Except.error { status_code := 404, detail := ("Task " ++ toString 999 ++ " not found") } ∧
    (update_task exSession 999 exUpd 5).1 =
      Except.error { status_code := 404, detail := ("Task " ++ toString 999 ++ " not found") } ∧
    (delete_task exSession 999).1 =
      Except.error { status_code := 404, detail := ("Task " ++ toString 999 ++ " not found") } ∧
    ∃ pre post, ("Task " ++ toString 999 ++ " not found") = pre ++ toString 999 ++ post :=
  not_found_semantics exSession 999 exUpd 5 (by decide) (by decide)

/-- characterization of `model_dump(exclude_unset=True)` followed by the
`setattr` loop: exactly the supplied fields change. -/
theorem applyFields_dumpExcludeUnset (t : Task) (u : TaskUpdate) :
    applyFields t u.dumpExcludeUnset =
      { t with
        title := u.title.getD t.title,
        description := u.description.getD t.description,
        completed := u.completed.getD t.completed } := by
  rcases u with ⟨ot, od, oc⟩
  cases ot <;> cases od <;> cases oc <;> rfl

/-- C2: updating an existing task through a non-empty `TaskUpdate` changes
exactly the supplied fields, keeps `id` and `created_at`, stamps `updated_at`
with the current wall-clock value, and — provided the wall clock advanced
past the previous stamp — the new stamp is strictly newer than the previous
one (a never-updated task having the null stamp, older than everything). -/
theorem update_frame_and_timestamp (s : Session) (i : Nat) (t : Task)
    (u : TaskUpdate) (now : Nat)
    (hget : TaskRepository.get s i = some t)
    (hne : u.dumpExcludeUnset ≠ [])
    (hclk : strictlyNewer t.updated_at (some now) = true) :
    ∃ t2, (TaskRepository.update s i u.dumpExcludeUnset now).1 = some t2 ∧
      t2.id = t.id ∧
      t2.created_at = t.created_at ∧
      t2.title = u.title.getD t.title ∧
      t2.description = u.description.getD t.description ∧
      t2.completed = u.completed.getD t.completed ∧
      t2.updated_at = some now ∧
      strictlyNewer t.updated_at t2.updated_at = true := by
  refine ⟨{ applyFields t u.dumpExcludeUnset with updated_at := some now },
    ?_, ?_, ?_, ?_, ?_, ?_, rfl, hclk⟩
  · simp [TaskRepository.update, hget]
  · simp [applyFields_dumpExcludeUnset]
  · simp [applyFields_dumpExcludeUnset]
  · simp [applyFields_dumpExcludeUnset]
  · simp [applyFields_dumpExcludeUnset]
  · simp [applyFields_dumpExcludeUnset]

/-- C2 witness: updating the sample task's `completed` flag at time 5. -/
theorem update_frame_and_timestamp_witness :
    ∃ t2, (TaskRepository.update exSession 1 exUpd.dumpExcludeUnset 5).1 = some t2 ∧
      t2.id = exTask.id ∧
      t2.created_at = exTask.created_at ∧
      t2.title = exUpd.title.getD exTask.title ∧
      t2.description = exUpd.description.getD exTask.description ∧
      t2.completed = exUpd.completed.getD exTask.completed ∧
      t2.updated_at = some 5 ∧
      strictlyNewer exTask.updated_at t2.updated_at = true :=
  update_frame_and_timestamp exSession 1 exTask exUpd 5 (by decide) (by decide) (by decide)

/-- C3: a PATCH whose body supplies no fields is rejected with 400 "No fields
to update" and the session — pending and committed state alike — is returned
untouched: no repository call happens and nothing is committed. -/
theorem empty_update_rejected (s : Session) (i : Nat) (u : TaskUpdate) (now : Nat)
    (h : u.dumpExcludeUnset = []) :
    update_task s i u now =
      (Except.error { status_code := 400, detail := "No fields to update" }, s) := by
  simp [update_task, h]

/-- C3 witness: the empty update on the sample session's existing id 1. -/
theorem empty_update_rejected_witness :
    update_task exSession 1 exEmptyUpd 5 =
      (Except.error { status_code := 400, detail := "No fields to update" }, exSession) :=
  empty_update_rejected exSession 1 exEmptyUpd 5 (by decide)

/-- C9: the empty-payload check runs before the repository lookup, so a PATCH
with an empty field set answers 400 "No fields to update" uniformly in the
stored state and the requested id — never 404, whether or not the id exists. -/
theorem empty_update_before_lookup (s s' : Session) (i i' : Nat) (u : TaskUpdate)
    (now now' : Nat) (h : u.dumpExcludeUnset = []) :
    (update_task s i u now).1 =
      Except.error { status_code := 400, detail := "No fields to update" } ∧
    (update_task s i u now).1 = (update_task s' i' u now').1 := by
  constructor <;> simp [update_task, h]

/-- C9 witness: the empty update answers 400 both on an absent id and on an
existing one, over different stored states. -/
theorem empty_update_before_lookup_witness :
    (update_task exSession 999 exEmptyUpd 5).1 =
      Except.error { status_code := 400, detail := "No fields to update" } ∧
    (update_task exSession 999 exEmptyUpd 5).1 =
      (update_task Session.empty 1 exEmptyUpd 7).1 :=
  empty_update_before_lookup exSession Session.empty 999 1 exEmptyUpd 5 7 (by decide)

/-- C4: `create` returns an entity with a generated (non-null) id, with
`created_at` set to the current time and `updated_at` null, and it never
commits: the committed state after `create` is exactly the caller's. -/
theorem create_returns_fresh_entity (s : Session) (d : TaskCreate) (now : Nat) :
    (TaskRepository.create s d now).1.id = some s.db.nextId ∧
    (TaskRepository.create s d now).1.id.isSome = true ∧
    (TaskRepository.create s d now).1.created_at = some now ∧
    (TaskRepository.create s d now).1.updated_at = none ∧
    (TaskRepository.create s d now).2.committed = s.committed :=
  ⟨rfl, rfl, rfl, rfl, rfl⟩

/-- C7: creating then immediately reading back — at the repository level and
through the POST-then-GET endpoints — returns exactly the supplied field
values, the server-generated fields being the only additions. -/
theorem create_get_roundtrip (s : Session) (d : TaskCreate) (now : Nat)
    (hfresh : ∀ t ∈ s.db.rows, t.id ≠ some s.db.nextId) :
    TaskRepository.get (TaskRepository.create s d now).2 s.db.nextId =
      some (TaskRepository.create s d now).1 ∧
    (TaskRepository.create s d now).1.title = d.title ∧
    (TaskRepository.create s d now).1.description = d.description ∧
    (TaskRepository.create s d now).1.completed = d.completed ∧
    get_task (create_task s d now).2 s.db.nextId = Except.ok (create_task s d now).1 := by
  have hnone : s.db.rows.find? (fun t => t.id == some s.db.nextId) = none := by
    rw [List.find?_eq_none]
    intro t ht
    simpa using hfresh t ht
  have hget : TaskRepository.get (TaskRepository.create s d now).2 s.db.nextId =
      some (TaskRepository.create s d now).1 := by
    simp [TaskRepository.get, TaskRepository.create, List.find?_append, hnone, mkTask]
  have hget2 : TaskRepository.get (create_task s d now).2 s.db.nextId =
      some (create_task s d now).1 := hget
  refine ⟨hget, rfl, rfl, rfl, ?_⟩
  unfold get_task
  rw [hget2]

/-- C7 witness: round trip of the sample payload at time 9 over the sample
session. -/
theorem create_get_roundtrip_witness :
    TaskRepository.get (TaskRepository.create exSession exCreate 9).2 exSession.db.nextId =
      some (TaskRepository.create exSession exCreate 9).1 ∧
    (TaskRepository.create exSession exCreate 9).1.title = exCreate.title ∧
    (TaskRepository.create exSession exCreate 9).1.description = exCreate.description ∧
    (TaskRepository.create exSession exCreate 9).1.completed = exCreate.completed ∧
    get_task (create_task exSession exCreate 9).2 exSession.db.nextId =
      Except.ok (create_task exSession exCreate 9).1 :=
  create_get_roundtrip exSession exCreate 9 (by decide)

/-- C10: the repository applies every dict key by attribute assignment with no
filtering at its boundary, so server-generated fields can be overwritten: a
`created_at` or `id` key takes effect, and an `updated_at` key is applied but
then re-overwritten with the current time. -/
theorem update_no_field_filtering (s : Session) (i : Nat) (t : Task) (now : Nat)
    (hget : TaskRepository.get s i = some t) :
    (∀ v, (TaskRepository.update s i [FieldVal.created_at v] now).1 =
        some { t with created_at := v, updated_at := some now }) ∧
    (∀ v, (TaskRepository.update s i [FieldVal.id v] now).1 =
        some { t with id := v, updated_at := some now }) ∧
    (∀ w, (TaskRepository.update s i [FieldVal.updated_at w] now).1 =
        some { t with updated_at := some now }) := by
  refine ⟨fun v => ?_, fun v => ?_, fun w => ?_⟩ <;>
    simp [TaskRepository.update, hget, applyFields, setattrTask]

/-- C5: `get_all` returns at most `limit` rows, sorted in ascending id order,
and a `skip` at or beyond the end of the collection yields the empty list
rather than an error; the window is the `skip`-offset of the full ordered
listing. -/
theorem get_all_pagination (s : Session) (skip limit : Nat) :
    (TaskRepository.get_all s skip limit).length ≤ limit ∧
    List.Sorted idLe (TaskRepository.get_all s skip limit) ∧
    TaskRepository.get_all s skip limit =
      (TaskRepository.get_all s 0 (skip + limit)).drop skip ∧
    (TaskRepository.count s ≤ skip → TaskRepository.get_all s skip limit = []) := by
  refine ⟨List.length_take_le _ _, ?_, ?_, ?_⟩
  · have hs : List.Sorted idLe (s.db.rows.insertionSort idLe) :=
      List.sorted_insertionSort idLe s.db.rows
    exact List.Pairwise.sublist
      ((List.take_sublist _ _).trans (List.drop_sublist _ _)) hs
  · unfold TaskRepository.get_all
    rw [List.take_drop, List.drop_zero]
  · intro h
    have hlen : (s.db.rows.insertionSort idLe).length ≤ skip := by
      rw [List.length_insertionSort]
      exact h
    unfold TaskRepository.get_all
    rw [List.drop_eq_nil_of_le hlen, List.take_nil]

/-- C5 witness: paging past the end of the one-row sample collection. -/
theorem get_all_pagination_witness :
    (TaskRepository.get_all exSession 5 3).length ≤ 3 ∧
    List.Sorted idLe (TaskRepository.get_all exSession 5 3) ∧
    TaskRepository.get_all exSession 5 3 =
      (TaskRepository.get_all exSession 0 (5 + 3)).drop 5 ∧
    TaskRepository.get_all exSession 5 3 = [] :=
  ⟨(get_all_pagination exSession 5 3).1,
   (get_all_pagination exSession 5 3).2.1,
   (get_all_pagination exSession 5 3).2.2.1,
   (get_all_pagination exSession 5 3).2.2.2 (by decide)⟩

/-- a pattern that is no substring at all is in particular no list prefix. -/
theorem isPrefixOf_eq_false_of_not_infix {pat s : List Char}
    (h : listIsInfix pat s = false) : pat.isPrefixOf s = false := by
  cases s with
  | nil =>
      unfold listIsInfix at h
      cases pat with
      | nil => simp [List.isEmpty] at h
      | cons a l => rfl
  | cons c rest =>
      unfold listIsInfix at h
      cases hp : pat.isPrefixOf (c :: rest) with
      | false => rfl
      | true => rw [hp] at h; simp at h

/-- `str.replace(pat, rep, 1)` on a string that starts with the pattern
replaces exactly that leading occurrence. -/
theorem replaceFirstAux_of_isPrefixOf (pat rep s : List Char)
    (hne : pat ≠ []) (h : pat.isPrefixOf s = true) :
    replaceFirstAux pat rep s = rep ++ s.drop pat.length := by
  cases s with
  | nil =>
      cases pat with
      | nil => exact absurd rfl hne
      | cons a l => simp [List.isPrefixOf] at h
  | cons c rest => simp [replaceFirstAux, h]

/-- `str.replace(pat, rep)` on a string not containing the pattern is the
identity. -/
theorem replaceAllAux_of_not_infix (pat rep : List Char) :
    ∀ s, listIsInfix pat s = false → replaceAllAux pat rep s = s := by
  intro s
  induction s with
  | nil => intro _; unfold replaceAllAux; rfl
  | cons c rest ih =>
      intro h
      unfold listIsInfix at h
      rw [Bool.or_eq_false_iff] at h
      unfold replaceAllAux
      rw [dif_neg]
      · rw [ih h.2]
      · intro hc
        rw [h.1] at hc
        exact Bool.false_ne_true hc.1

/-- the `re.sub` parameter removal on a string not containing the parameter
name is the identity. -/
theorem removeParamAux_of_not_infix (pat : List Char) :
    ∀ s, listIsInfix pat s = false → removeParamAux pat s = s := by
  intro s
  induction s with
  | nil => intro _; unfold removeParamAux; rfl
  | cons c rest ih =>
      intro h
      unfold listIsInfix at h
      rw [Bool.or_eq_false_iff] at h
      have hp : pat.isPrefixOf rest = false := isPrefixOf_eq_false_of_not_infix h.2
      unfold removeParamAux
      rw [if_neg]
      · rw [ih h.2]
      · intro hc
        rw [hp, Bool.and_false] at hc
        exact Bool.false_ne_true hc

/-- the guarded source rewriting chain equals the unguarded spec-side chain. -/
theorem processUrl_eq_specRewriteUrl (url : String) :
    DatabaseConfig.processUrl url = specRewriteUrl url := by
  simp only [DatabaseConfig.processUrl, specRewriteUrl]
  have e1 :
      (if ("postgresql://".toList).isPrefixOf url.toList then
        replaceFirstAux ("postgresql://".toList) ("postgresql+asyncpg://".toList) url.toList
      else url.toList) =
      (if ("postgresql://".toList).isPrefixOf url.toList then
        ("postgresql+asyncpg://".toList) ++ url.toList.drop (("postgresql://".toList).length)
      else url.toList) := by
    by_cases hp : ("postgresql://".toList).isPrefixOf url.toList
    · rw [if_pos hp, if_pos hp,
        replaceFirstAux_of_isPrefixOf _ _ _ (by decide) hp]
    · rw [if_neg hp, if_neg hp]
  rw [e1]
  have e2 : ∀ u : List Char,
      (if listIsInfix ("sslmode=".toList) u then
        replaceAllAux ("sslmode=".toList) ("ssl=".toList) u
      else u) = replaceAllAux ("sslmode=".toList) ("ssl=".toList) u := by
    intro u
    by_cases hi : listIsInfix ("sslmode=".toList) u
    · rw [if_pos hi]
    · rw [if_neg hi,
        replaceAllAux_of_not_infix _ _ u (Bool.eq_false_iff.mpr hi)]
  rw [e2]
  have e3 : ∀ u : List Char,
      (if listIsInfix ("channel_binding=".toList) u then
        removeParamAux ("channel_binding=".toList) u
      else u) = removeParamAux ("channel_binding=".toList) u := by
    intro u
    by_cases hi : listIsInfix ("channel_binding=".toList) u
    · rw [if_pos hi]
    · rw [if_neg hi,
        removeParamAux_of_not_infix _ u (Bool.eq_false_iff.mpr hi)]
  rw [e3]

/-- C8: the connection string is taken from `DATABASE_URL` first, falling
back to `DB_URL`; construction fails with the documented error when neither
is usable, and otherwise the stored URL is the claimed textual rewriting —
leading `postgresql://` becomes `postgresql+asyncpg://`, every `sslmode=`
becomes `ssl=`, and any `channel_binding=` query parameter is removed. -/
theorem database_url_rewrite (database_url db_url : Option String) :
    (envOr database_url db_url = none →
      DatabaseConfig.init database_url db_url =
        Except.error "DATABASE_URL or DB_URL environment variable is required") ∧
    (∀ u, database_url = some u → u ≠ "" →
      DatabaseConfig.init database_url db_url = Except.ok (specRewriteUrl u)) ∧
    (∀ v, database_url = none → db_url = some v → v ≠ "" →
      DatabaseConfig.init database_url db_url = Except.ok (specRewriteUrl v)) := by
  refine ⟨?_, ?_, ?_⟩
  · intro h
    unfold DatabaseConfig.init
    rw [h]
  · intro u hu hne
    have he : envOr database_url db_url = some u := by
      rw [hu]
      simp only [envOr]
      rw [if_neg hne]
    unfold DatabaseConfig.init
    rw [he]
    exact congrArg Except.ok (processUrl_eq_specRewriteUrl u)
  · intro v hdu hv hne
    have he : envOr database_url db_url = some v := by
      rw [hdu, hv]
      simp only [envOr, envOr.envOrSnd]
      rw [if_neg hne]
    unfold DatabaseConfig.init
    rw [he]
    exact congrArg Except.ok (processUrl_eq_specRewriteUrl v)

/-- C8 witness: no variable set fails; the sample hosted-provider URL in
`DATABASE_URL` is rewritten; `DB_URL` is used when `DATABASE_URL` is unset. -/
theorem database_url_rewrite_witness :
    DatabaseConfig.init none none =
      Except.error "DATABASE_URL or DB_URL environment variable is required" ∧
    DatabaseConfig.init (some exUrl) none = Except.ok (specRewriteUrl exUrl) ∧
    DatabaseConfig.init none (some exUrl) = Except.ok (specRewriteUrl exUrl) :=
  ⟨(database_url_rewrite none none).1 rfl,
   (database_url_rewrite (some exUrl) none).2.1 exUrl rfl (by decide),
   (database_url_rewrite none (some exUrl)).2.2 exUrl rfl rfl (by decide)⟩

/-- one instrumented step projects to one repository step. -/
theorem gstep_proj (g : GDB) (s : Session) (h : s.db = g.proj) (op : Op) :
    (step s op).db = (gstep g op).proj := by
  cases op with
  | create d now =>
      simp only [step, TaskRepository.create, gstep, GDB.proj, h, List.map_append,
        List.map_cons, List.map_nil]
  | update i data now =>
      have hfind : TaskRepository.get s i =
          (g.rows.find? (fun r => r.task.id == some i)).map GTask.task := by
        unfold TaskRepository.get
        rw [h]
        show (g.rows.map GTask.task).find? (fun t => t.id == some i) = _
        rw [List.find?_map]
        rfl
      cases hf : g.rows.find? (fun r => r.task.id == some i) with
      | none =>
          have : TaskRepository.get s i = none := by rw [hfind, hf]; rfl
          simp only [step, TaskRepository.update, this, gstep, hf]
          exact h
      | some r0 =>
          have hg : TaskRepository.get s i = some r0.task := by rw [hfind, hf]; rfl
          simp only [step, TaskRepository.update, hg, gstep, hf, GDB.proj]
          rw [h]
          show { rows := (g.rows.map GTask.task).map _, nextId := g.nextId } =
            ({ rows := (g.rows.map _).map GTask.task, nextId := g.nextId } : DB)
          rw [List.map_map, List.map_map]
          congr 1
          apply List.map_congr_left
          intro x _
          by_cases hx : x.task.id == some i
          · simp [Function.comp, hx]
          · simp [Function.comp, hx]
  | delete i =>
      have hfind : TaskRepository.get s i =
          (g.rows.find? (fun r => r.task.id == some i)).map GTask.task := by
        unfold TaskRepository.get
        rw [h]
        show (g.rows.map GTask.task).find? (fun t => t.id == some i) = _
        rw [List.find?_map]
        rfl
      cases hf : g.rows.find? (fun r => r.task.id == some i) with
      | none =>
          have : TaskRepository.get s i = none := by rw [hfind, hf]; rfl
          simp only [step, TaskRepository.delete, this, gstep, hf]
          exact h
      | some r0 =>
          have hg : TaskRepository.get s i = some r0.task := by rw [hfind, hf]; rfl
          simp only [step, TaskRepository.delete, hg, gstep, hf, GDB.proj]
          rw [h]
          show { rows := (g.rows.map GTask.task).filter _, nextId := g.nextId } =
            ({ rows := (g.rows.filter _).map GTask.task, nextId := g.nextId } : DB)
          rw [List.filter_map]
          rfl

/-- one instrumented step preserves the ghost invariant. -/
theorem gstep_inv (g : GDB) (hg : GInv g) (op : Op) : GInv (gstep g op) := by
  cases op with
  | create d now =>
      intro r hr
      simp only [gstep] at hr
      rw [List.mem_append] at hr
      rcases hr with hr | hr
      · exact hg r hr
      · rw [List.mem_singleton] at hr
        subst hr
        rfl
  | update i data now =>
      cases hf : g.rows.find? (fun r => r.task.id == some i) with
      | none =>
          simp only [gstep]
          rw [hf]
          exact hg
      | some r0 =>
          simp only [gstep]
          rw [hf]
          intro r hr
          rw [List.mem_map] at hr
          rcases hr with ⟨x, hx, hfx⟩
          by_cases hc : x.task.id == some i
          · rw [if_pos hc] at hfx
            subst hfx
            rfl
          · rw [if_neg hc] at hfx
            subst hfx
            exact hg x hx
  | delete i =>
      cases hf : g.rows.find? (fun r => r.task.id == some i) with
      | none =>
          simp only [gstep]
          rw [hf]
          exact hg
      | some r0 =>
          simp only [gstep]
          rw [hf]
          intro r hr
          exact hg r (List.mem_of_mem_filter hr)

/-- over a whole trace: the real run is the projection of the instrumented
run, and the invariant holds in the instrumented run. -/
theorem run_proj_and_inv (ops : List Op) :
    ∀ (s : Session) (g : GDB), s.db = g.proj → GInv g →
      (ops.foldl step s).db = (ops.foldl gstep g).proj ∧ GInv (ops.foldl gstep g) := by
  induction ops with
  | nil => exact fun s g h hg => ⟨h, hg⟩
  | cons op rest ih =>
      intro s g h hg
      exact ih (step s op) (gstep g op) (gstep_proj g s h op) (gstep_inv g hg op)

/-- C6: in every state reachable by a sequence of repository operations from
the empty store, a stored task's `updated_at` is non-null exactly when the
task has been modified by a successful update since its creation (the ghost
`modified` flag of the instrumented run, whose projection the real run is):
create leaves the stamp null and every successful update makes and keeps it
non-null. -/
theorem updated_at_iff_modified (ops : List Op) :
    (run ops).db = (grun ops).proj ∧
    ∀ r ∈ (grun ops).rows, r.task.updated_at.isSome = r.modified :=
  run_proj_and_inv ops Session.empty GDB.empty rfl
    (fun r hr => absurd hr (List.not_mem_nil r))

/-- C6 witness: the sample trace (create at time 1, update at time 2) yields
one row, updated and carrying a non-null stamp. -/
theorem updated_at_iff_modified_witness :
    (run exOps).db = (grun exOps).proj ∧
    exGTask.task.updated_at.isSome = exGTask.modified :=
  ⟨(updated_at_iff_modified exOps).1,
   (updated_at_iff_modified exOps).2 exGTask (by decide)⟩

/-- C10 witness: overwriting `created_at`, `id` and `updated_at` of the
sample task through the repository. -/
theorem update_no_field_filtering_witness :
    (TaskRepository.update exSession 1 [FieldVal.created_at (some 77)] 5).1 =
      some { exTask with created_at := some 77, updated_at := some 5 } ∧
    (TaskRepository.update exSession 1 [FieldVal.id (some 42)] 5).1 =
      some { exTask with id := some 42, updated_at := some 5 } ∧
    (TaskRepository.update exSession 1 [FieldVal.updated_at none] 5).1 =
      some { exTask with updated_at := some 5 } :=
  ⟨(update_no_field_filtering exSession 1 exTask 5 (by decide)).1 (some 77),
   (update_no_field_filtering exSession 1 exTask 5 (by decide)).2.1 (some 42),
   (update_no_field_filtering exSession 1 exTask 5 (by decide)).2.2 none⟩

end TaskApp
